import Mathlib

/-!
Verification development for the printsnmp telemetry agent.

Each Go function relevant to the verified properties is embedded shallowly:
Go strings are `List Char`, raw byte slices are `List Nat` (one entry per
byte), `int64` values are `Int` (with explicit two's-complement wrapping
where Go overflow could matter), `float64` quantities are modelled as exact
rationals `ℚ`, Go maps are association lists, and fallible functions return
`Option`/`Except`.
-/

namespace PrintSNMP

/-! ### Association-list model of Go maps -/

/-- Lookup in an association list, modelling a Go map read. -/
def lookupAssoc {α : Type} (m : List (List Char × α)) (k : List Char) : Option α :=
  (m.find? (fun p => decide (p.1 = k))).map (·.2)

/-- Assignment in an association list, modelling a Go map write
(the previous binding for the key, if any, is replaced). -/
def insertAssoc {α : Type} (m : List (List Char × α)) (k : List Char) (v : α) :
    List (List Char × α) :=
  (m.filter fun p => !(decide (p.1 = k))) ++ [(k, v)]

theorem find?_append_of_none {α : Type} (p : α → Bool) (l l' : List α)
    (h : ∀ x ∈ l, p x = false) : (l ++ l').find? p = l'.find? p := by
  induction l with
  | nil => simp
  | cons a t ih =>
      have ha : p a = false := h a (by simp)
      simp only [List.cons_append, List.find?_cons, ha]
      exact ih (fun x hx => h x (by simp [hx]))

theorem lookupAssoc_insertAssoc {α : Type} (m : List (List Char × α))
    (k : List Char) (v : α) : lookupAssoc (insertAssoc m k v) k = some v := by
  unfold lookupAssoc insertAssoc
  rw [find?_append_of_none]
  · simp
  · intro x hx
    have := List.of_mem_filter hx
    simpa using this

/-! ### pkg/collector/state.go : per-printer state and delta computation -/

/-- `CountersInfo` from pkg/collector (six absolute page counters, Go `int64`). -/
structure CountersInfo where
  totalPages : Int
  monoPages : Int
  colorPages : Int
  scanPages : Int
  copyPages : Int
  faxPages : Int
  deriving Repr, DecidableEq

/-- `CountersDiff` from pkg/collector (componentwise differences, Go `int64`). -/
structure CountersDiff where
  totalPages : Int
  monoPages : Int
  colorPages : Int
  scanPages : Int
  copyPages : Int
  faxPages : Int
  deriving Repr, DecidableEq

/-- `PrinterState` from pkg/collector/state.go (the `last_poll_at` timestamp is
carried by the Go struct but plays no role in delta computation). -/
structure PrinterState where
  counters : CountersInfo
  deriving Repr, DecidableEq

/-- Two's-complement wrap into the Go `int64` range, applied where the source
performs `int64` subtraction. -/
def wrap64 (x : Int) : Int := (x + 2 ^ 63) % 2 ^ 64 - 2 ^ 63

theorem wrap64_eq_self {x : Int} (h1 : -(2 ^ 63) ≤ x) (h2 : x < 2 ^ 63) :
    wrap64 x = x := by
  unfold wrap64
  have h0 : (0 : Int) ≤ x + 2 ^ 63 := by omega
  have hlt : x + 2 ^ 63 < 2 ^ 64 := by omega
  rw [Int.emod_eq_of_lt h0 hlt]
  omega

/-- `StateManager.CalculateDelta` (state.go, lines 67-94).  The stored state
loaded by `LoadState` is passed in directly: `none` stands for "no prior state
file" and also for a failed load, both of which the source maps to
`(nil, false)`. -/
def CalculateDelta (previousState : Option PrinterState)
    (currentCounters : CountersInfo) : Option CountersDiff × Bool :=
  match previousState with
  | none => (none, false)
  | some prev =>
      if currentCounters.totalPages < prev.counters.totalPages then
        (none, true)
      else
        (some {
          totalPages := wrap64 (currentCounters.totalPages - prev.counters.totalPages)
          monoPages := wrap64 (currentCounters.monoPages - prev.counters.monoPages)
          colorPages := wrap64 (currentCounters.colorPages - prev.counters.colorPages)
          scanPages := wrap64 (currentCounters.scanPages - prev.counters.scanPages)
          copyPages := wrap64 (currentCounters.copyPages - prev.counters.copyPages)
          faxPages := wrap64 (currentCounters.faxPages - prev.counters.faxPages)
        }, false)

/-- All six counters within the ingestion range `[0, 3·10⁹]` enforced by
`collectCounters`. -/
def CountersInfo.InRange (c : CountersInfo) : Prop :=
  0 ≤ c.totalPages ∧ c.totalPages ≤ 3000000000 ∧
  0 ≤ c.monoPages ∧ c.monoPages ≤ 3000000000 ∧
  0 ≤ c.colorPages ∧ c.colorPages ≤ 3000000000 ∧
  0 ≤ c.scanPages ∧ c.scanPages ≤ 3000000000 ∧
  0 ≤ c.copyPages ∧ c.copyPages ≤ 3000000000 ∧
  0 ≤ c.faxPages ∧ c.faxPages ≤ 3000000000

instance (c : CountersInfo) : Decidable c.InRange := by
  unfold CountersInfo.InRange
  infer_instance

/-- C1 counterexample: with stored counters `{total 100, mono 50}` and current
counters `{total 100, mono 30}` the mono counter has decreased, so the claim
demands `(null, true)`; `CalculateDelta` instead returns a non-null delta with
the negative component `mono = -20` and `reset = false`. -/
theorem CalculateDelta_claim_counterexample :
    CalculateDelta (some ⟨⟨100, 50, 0, 0, 0, 0⟩⟩) ⟨100, 30, 0, 0, 0, 0⟩ =
      (some ⟨0, -20, 0, 0, 0, 0⟩, false) ∧ (30 : Int) < 50 := by
  constructor
  · decide
  · decide

/-- C1 (amended): `CalculateDelta` returns `(null, false)` when no prior state
exists; it detects a reset — returning `(null, true)` — only when the *total*
counter is strictly below its stored value; otherwise it returns the
componentwise difference `current - stored` with `reset = false`, whose
`total` component is nonnegative (the other five components may be negative). -/
theorem CalculateDelta_amended (prev : PrinterState) (cur : CountersInfo)
    (hp : prev.counters.InRange) (hc : cur.InRange) :
    (CalculateDelta none cur = (none, false)) ∧
    (cur.totalPages < prev.counters.totalPages →
      CalculateDelta (some prev) cur = (none, true)) ∧
    (prev.counters.totalPages ≤ cur.totalPages →
      CalculateDelta (some prev) cur =
        (some {
          totalPages := cur.totalPages - prev.counters.totalPages
          monoPages := cur.monoPages - prev.counters.monoPages
          colorPages := cur.colorPages - prev.counters.colorPages
          scanPages := cur.scanPages - prev.counters.scanPages
          copyPages := cur.copyPages - prev.counters.copyPages
          faxPages := cur.faxPages - prev.counters.faxPages
        }, false) ∧
      0 ≤ cur.totalPages - prev.counters.totalPages) := by
  obtain ⟨hp1, hp2, hp3, hp4, hp5, hp6, hp7, hp8, hp9, hp10, hp11, hp12⟩ := hp
  obtain ⟨hc1, hc2, hc3, hc4, hc5, hc6, hc7, hc8, hc9, hc10, hc11, hc12⟩ := hc
  refine ⟨rfl, ?_, ?_⟩
  · intro h
    simp [CalculateDelta, h]
  · intro h
    have hnot : ¬ cur.totalPages < prev.counters.totalPages := by omega
    refine ⟨?_, by omega⟩
    have w1 := wrap64_eq_self (x := cur.totalPages - prev.counters.totalPages)
      (by omega) (by omega)
    have w2 := wrap64_eq_self (x := cur.monoPages - prev.counters.monoPages)
      (by omega) (by omega)
    have w3 := wrap64_eq_self (x := cur.colorPages - prev.counters.colorPages)
      (by omega) (by omega)
    have w4 := wrap64_eq_self (x := cur.scanPages - prev.counters.scanPages)
      (by omega) (by omega)
    have w5 := wrap64_eq_self (x := cur.copyPages - prev.counters.copyPages)
      (by omega) (by omega)
    have w6 := wrap64_eq_self (x := cur.faxPages - prev.counters.faxPages)
      (by omega) (by omega)
    simp only [CalculateDelta, hnot, if_false, w1, w2, w3, w4, w5, w6]

/-- Witness for `CalculateDelta_amended` at concrete stored/current counters. -/
theorem CalculateDelta_amended_witness :
    CalculateDelta (some ⟨⟨12000, 0, 0, 0, 0, 0⟩⟩) ⟨12345, 0, 0, 0, 0, 0⟩ =
      (some ⟨345, 0, 0, 0, 0, 0⟩, false) := by
  have h := (CalculateDelta_amended ⟨⟨12000, 0, 0, 0, 0, 0⟩⟩ ⟨12345, 0, 0, 0, 0, 0⟩
    (by decide) (by decide)).2.2 (by decide)
  simpa using h.1

/-! ### pkg/sink/http_sink.go : HTTP sink with retry loop -/

/-- Outcome of one HTTP POST as seen by `sendRequest`: either a response with
a status code, or a transport-level error from `client.Do`. -/
inductive HttpOutcome where
  | status (code : Nat)
  | transport
  deriving Repr, DecidableEq

/-- Classification produced by `HTTPSink.sendRequest` (http_sink.go, lines
116-162): `2xx` → nil error, `4xx` → a `*SinkError` ("client error ... no
reintentar"), any other status → a plain "server error", transport failure →
a plain wrapped error. -/
inductive SendResult where
  | success
  | clientError
  | serverError
  | transportError
  deriving Repr, DecidableEq

/-- `HTTPSink.sendRequest`, abstracted over the network outcome. -/
def sendRequest : HttpOutcome → SendResult
  | .status code =>
      if 200 ≤ code ∧ code < 300 then .success
      else if 400 ≤ code ∧ code < 500 then .clientError
      else .serverError
  | .transport => .transportError

/-- The 60-second backoff cap of `HTTPSink.Write`, in nanoseconds (Go
`time.Duration` units). -/
def backoffCap : Nat := 60 * 1000000000

/-- The retry loop of `HTTPSink.Write` (http_sink.go, lines 61-112).
`outcomes k` is the network outcome of attempt `k`; `fuel` starts at
`maxRetries + 1` so the loop runs attempts `0..maxRetries` exactly as the Go
`for` loop does.  Returns (number of requests sent, success flag, list of
waits performed before retries).  Context cancellation — which merely aborts a
pending wait — is not modelled. -/
def writeAux (outcomes : Nat → HttpOutcome) (maxRetries : Nat) :
    Nat → Nat → Nat → List Nat → Nat × Bool × List Nat
  | 0, attempt, _, waits => (attempt, false, waits.reverse)
  | fuel + 1, attempt, wait, waits =>
      let waits' := if attempt = 0 then waits else wait :: waits
      let wait' := if attempt = 0 then wait else min (2 * wait) backoffCap
      match sendRequest (outcomes attempt) with
      | .success => (attempt + 1, true, waits'.reverse)
      | _ =>
          if attempt = maxRetries then (attempt + 1, false, waits'.reverse)
          else writeAux outcomes maxRetries fuel (attempt + 1) wait' waits'

/-- `HTTPSink.Write`: up to `maxRetries + 1` attempts, waiting before every
attempt after the first, with the wait doubled after each attempt and capped
at 60 s.  Note that the loop body retries on *every* non-nil error from
`sendRequest`; it never inspects whether the error was the 4xx
`*SinkError`. -/
def HTTPSinkWrite (maxRetries initialWait : Nat) (outcomes : Nat → HttpOutcome) :
    Nat × Bool × List Nat :=
  writeAux outcomes maxRetries (maxRetries + 1) 0 initialWait []

/-- C3: with `max_retries = 3` and an endpoint that answers HTTP 400 to every
request, `Write` sends 4 requests (waiting 1 s, 2 s, 4 s between them) and
fails only after exhausting all attempts — even though `sendRequest`
classifies 400 as the non-retryable client error and its own comment says
"4xx = no reintentar".  The claim (and the spec) require a terminal error
after a single request. -/
theorem HTTPSinkWrite_retries_4xx :
    HTTPSinkWrite 3 1000000000 (fun _ => .status 400) =
      (4, false, [1000000000, 2000000000, 4000000000]) ∧
    sendRequest (.status 400) = .clientError := by
  constructor
  · rfl
  · rfl

/-! ### pkg/profile/friendly_names.go : profile store -/

/-- `Profile` (the fields involved in validation bookkeeping and identity;
`success_rate`, a Go `float64`, is modelled as an exact rational). -/
structure Profile where
  printerID : List Char
  ip : List Char
  brand : List Char
  model : List Char
  discoveryAttempts : Int
  errorCount : Int
  lastError : List Char
  successRate : ℚ
  deriving Repr, DecidableEq

/-- `Manager.UpdateValidation` (friendly_names.go, lines 342-369), applied to
the cached profile.  `DiscoveryAttempts++` happens before the branch; on
success the error state is cleared and the rate is set to the constant
`0.95`; on failure the rate is recomputed from the incremented counts.  The
Go literal `0.95` is modelled as the exact rational `19/20`. -/
def UpdateValidation (p : Profile) (success : Bool) (err : List Char) : Profile :=
  let p := { p with discoveryAttempts := p.discoveryAttempts + 1 }
  if success then
    { p with errorCount := 0, lastError := [], successRate := 19 / 20 }
  else
    let p := { p with errorCount := p.errorCount + 1, lastError := err }
    if p.discoveryAttempts > 0 then
      { p with successRate :=
          ((p.discoveryAttempts : ℚ) - (p.errorCount : ℚ)) / (p.discoveryAttempts : ℚ) }
    else p

/-- C8 counterexample: a fresh profile validated successfully ends with
`attempts = 1`, `error_count = 0`, for which the claimed formula
`(attempts − error_count)/attempts` gives `1`; the code instead stores the
constant `0.95`. -/
theorem UpdateValidation_success_counterexample :
    (UpdateValidation ⟨['p'], [], [], [], 0, 0, [], 0⟩ true []).successRate = 19 / 20 ∧
    (UpdateValidation ⟨['p'], [], [], [], 0, 0, [], 0⟩ true []).discoveryAttempts = 1 ∧
    (UpdateValidation ⟨['p'], [], [], [], 0, 0, [], 0⟩ true []).errorCount = 0 ∧
    ((1 : ℚ) - 0) / 1 ≠ 19 / 20 := by
  refine ⟨rfl, rfl, rfl, by norm_num⟩

/-- C8 (amended): on success `UpdateValidation` clears the stored error,
zeroes the error count and sets `success_rate` to the constant `0.95`; the
formula `(attempts − error_count)/attempts` is applied only on failure, using
the already-incremented attempt and error counts, and without any
nonnegativity cap (the stored rate is negative whenever
`error_count > attempts`). -/
theorem UpdateValidation_amended (p : Profile) (err : List Char)
    (h : 0 < p.discoveryAttempts + 1) :
    ((UpdateValidation p true err).lastError = [] ∧
     (UpdateValidation p true err).errorCount = 0 ∧
     (UpdateValidation p true err).successRate = 19 / 20) ∧
    ((UpdateValidation p false err).lastError = err ∧
     (UpdateValidation p false err).errorCount = p.errorCount + 1 ∧
     (UpdateValidation p false err).successRate =
       ((p.discoveryAttempts + 1 : ℚ) - (p.errorCount + 1 : ℚ)) /
         (p.discoveryAttempts + 1 : ℚ)) := by
  refine ⟨⟨rfl, rfl, rfl⟩, ?_⟩
  have hgt : p.discoveryAttempts + 1 > 0 := h
  simp only [UpdateValidation, if_neg (Bool.false_ne_true), hgt, if_pos]
  refine ⟨trivial, trivial, ?_⟩
  push_cast
  ring_nf

/-- Witness for `UpdateValidation_amended` on a profile with one prior
attempt: a failed validation stores rate `(2 − 1)/2 = 1/2`. -/
theorem UpdateValidation_amended_witness :
    (UpdateValidation ⟨['p'], [], [], [], 1, 0, [], 1⟩ false ['e']).successRate =
      ((1 + 1 : ℚ) - (0 + 1 : ℚ)) / (1 + 1 : ℚ) :=
  (UpdateValidation_amended ⟨['p'], [], [], [], 1, 0, [], 1⟩ ['e'] (by norm_num)).2.2.2

/-- The profile `Manager`: the in-memory cache and the on-disk JSON files,
both keyed association lists. -/
structure Manager where
  cache : List (List Char × Profile)
  disk : List (List Char × Profile)

/-- `Manager.getFileName`: path-unsafe characters replaced by `_`, plus the
`.json` extension. -/
def getFileName (printerID : List Char) : List Char :=
  (printerID.map fun c =>
    if c = '/' ∨ c = '\\' ∨ c = ':' ∨ c = '*' ∨ c = '?' ∨ c = '"' ∨
       c = '<' ∨ c = '>' ∨ c = '|' then '_' else c) ++ ".json".toList

/-- `Manager.SaveProfile` (friendly_names.go, lines 308-321): rejects a nil
profile or an empty `printer_id`, otherwise stores the profile in the cache
and writes it to disk. -/
def SaveProfile (m : Manager) (profile : Option Profile) :
    Except (List Char) Manager :=
  match profile with
  | none => .error "profile inválido para guardar".toList
  | some p =>
      if p.printerID = [] then .error "profile inválido para guardar".toList
      else .ok {
        cache := insertAssoc m.cache p.printerID p
        disk := insertAssoc m.disk (getFileName p.printerID) p
      }

/-- `Manager.GetOrDiscover` (friendly_names.go, lines 283-305): cache hit,
else disk load (which also populates the cache), else `none` to signal that
discovery is needed.  The returned profile is what matters for the claims, so
the cache-population side effect is not threaded through. -/
def GetOrDiscover (m : Manager) (printerID : List Char) : Option Profile :=
  match lookupAssoc m.cache printerID with
  | some p => some p
  | none =>
      match lookupAssoc m.disk (getFileName printerID) with
      | some p => some p
      | none => none

/-- C9: saving a valid profile and then looking up its `printer_id` on the
same store returns a record equal (deep-equal, since the model is a plain
structure) to the saved profile. -/
theorem SaveProfile_GetOrDiscover_roundtrip (m : Manager) (p : Profile)
    (h : p.printerID ≠ []) :
    ∃ m', SaveProfile m (some p) = .ok m' ∧
      GetOrDiscover m' p.printerID = some p := by
  refine ⟨{ cache := insertAssoc m.cache p.printerID p
            disk := insertAssoc m.disk (getFileName p.printerID) p }, ?_, ?_⟩
  · simp [SaveProfile, h]
  · simp [GetOrDiscover, lookupAssoc_insertAssoc]

/-- Witness for `SaveProfile_GetOrDiscover_roundtrip` on an empty store and a
concrete profile. -/
theorem SaveProfile_GetOrDiscover_roundtrip_witness :
    ∃ m', SaveProfile ⟨[], []⟩ (some ⟨['p', '1'], [], [], [], 0, 0, [], 1⟩) = .ok m' ∧
      GetOrDiscover m' ['p', '1'] = some ⟨['p', '1'], [], [], [], 0, 0, [], 1⟩ :=
  SaveProfile_GetOrDiscover_roundtrip ⟨[], []⟩ ⟨['p', '1'], [], [], [], 0, 0, [], 1⟩
    (by decide)

/-! ### pkg/detector/brand.go : brand detection -/

/-- `strings.Contains(s, pat)`. -/
def containsSub (s pat : List Char) : Bool := decide (pat <:+: s)

/-- `matchesPatterns` (brand.go, lines 71-78). -/
def matchesPatterns (descLower : List Char) (patterns : List (List Char)) : Bool :=
  patterns.any fun pat => containsSub descLower pat

/-- HP pattern table of `DetectBrand`. -/
def hpPatterns : List (List Char) :=
  ["hp".toList, "hewlett packard".toList, "laserjet".toList,
   "officejet".toList, "color laserjet".toList]

/-- Xerox pattern table of `DetectBrand`. -/
def xeroxPatterns : List (List Char) :=
  ["xerox".toList, "docucentre".toList, "workcentre".toList,
   "docucolor".toList, "versalink".toList]

/-- Brother pattern table of `DetectBrand`. -/
def brotherPatterns : List (List Char) :=
  ["brother".toList, "hl-".toList, "mfc-".toList, "dcpl".toList]

/-- Ricoh pattern table of `DetectBrand`. -/
def ricohPatterns : List (List Char) :=
  ["ricoh".toList, "imagio".toList, "lanier".toList, "gestetner".toList]

/-- Canon pattern table of `DetectBrand`. -/
def canonPatterns : List (List Char) :=
  ["canon".toList, "imagerunner".toList, "ir-".toList]

/-- Konica Minolta pattern table of `DetectBrand`. -/
def konicaPatterns : List (List Char) :=
  ["konica".toList, "minolta".toList, "bizhub".toList, "accurio".toList]

/-- OKI pattern table of `DetectBrand`. -/
def okiPatterns : List (List Char) :=
  ["oki".toList, "okidata".toList, "c931".toList, "c941".toList]

/-- Kyocera pattern table of `DetectBrand`. -/
def kyoceraPatterns : List (List Char) :=
  ["kyocera".toList, "mita".toList, "taskalfa".toList, "km-".toList]

/-- Sharp pattern table of `DetectBrand`. -/
def sharpPatterns : List (List Char) :=
  ["sharp".toList, "mx-".toList, "ar-".toList]

/-- Toshiba pattern table of `DetectBrand`. -/
def toshibaPatterns : List (List Char) :=
  ["toshiba".toList, "e-studio".toList]

/-- Samsung pattern table of `DetectBrand`. -/
def samsungPatterns : List (List Char) :=
  ["samsung".toList, "ml-".toList, "sl-".toList, "clp-".toList]

/-- `DetectBrand` (brand.go, lines 8-68): ordered case-insensitive substring
match; first brand whose pattern list matches wins. -/
def DetectBrand (sysDescr : List Char) : List Char :=
  let descLower := sysDescr.map Char.toLower
  if matchesPatterns descLower hpPatterns then "HP".toList
  else if matchesPatterns descLower xeroxPatterns then "Xerox".toList
  else if matchesPatterns descLower brotherPatterns then "Brother".toList
  else if matchesPatterns descLower ricohPatterns then "Ricoh".toList
  else if matchesPatterns descLower canonPatterns then "Canon".toList
  else if matchesPatterns descLower konicaPatterns then "KonicaMinolta".toList
  else if matchesPatterns descLower okiPatterns then "OKI".toList
  else if matchesPatterns descLower kyoceraPatterns then "Kyocera".toList
  else if matchesPatterns descLower sharpPatterns then "Sharp".toList
  else if matchesPatterns descLower toshibaPatterns then "Toshiba".toList
  else if matchesPatterns descLower samsungPatterns then "Samsung".toList
  else "Generic".toList

/-- C10 counterexample: "sharp" does *not* contain the substring "hp" (its
`h` and `p` are not adjacent), so on the descriptor "Sharp MX-2600N" none of
the HP patterns match and `DetectBrand` reaches the Sharp branch, returning
"Sharp" — the claim says it returns "HP" and that the Sharp branch is
unreachable. -/
theorem DetectBrand_sharp_counterexample :
    "sharp".toList <:+: ("Sharp MX-2600N".toList.map Char.toLower) ∧
    DetectBrand "Sharp MX-2600N".toList = "Sharp".toList ∧
    DetectBrand "Sharp MX-2600N".toList ≠ "HP".toList := by
  refine ⟨by decide, by decide, by decide⟩

/-- C10 (amended): "hp" is not a substring of "sharp", so the Sharp brand
name alone never triggers the HP branch; a descriptor whose lowercase form
contains "sharp" and matches none of the pattern tables of the eight brands
tested earlier is detected as "Sharp". -/
theorem DetectBrand_sharp_amended (sysDescr : List Char)
    (hHP : matchesPatterns (sysDescr.map Char.toLower) hpPatterns = false)
    (hXerox : matchesPatterns (sysDescr.map Char.toLower) xeroxPatterns = false)
    (hBrother : matchesPatterns (sysDescr.map Char.toLower) brotherPatterns = false)
    (hRicoh : matchesPatterns (sysDescr.map Char.toLower) ricohPatterns = false)
    (hCanon : matchesPatterns (sysDescr.map Char.toLower) canonPatterns = false)
    (hKonica : matchesPatterns (sysDescr.map Char.toLower) konicaPatterns = false)
    (hOKI : matchesPatterns (sysDescr.map Char.toLower) okiPatterns = false)
    (hKyocera : matchesPatterns (sysDescr.map Char.toLower) kyoceraPatterns = false)
    (hsharp : "sharp".toList <:+: sysDescr.map Char.toLower) :
    ¬ ("hp".toList <:+: "sharp".toList) ∧
    DetectBrand sysDescr = "Sharp".toList := by
  refine ⟨by decide, ?_⟩
  have hm : matchesPatterns (sysDescr.map Char.toLower) sharpPatterns = true := by
    unfold matchesPatterns sharpPatterns containsSub
    simp only [List.any_cons]
    rw [decide_eq_true hsharp]
    simp
  simp only [DetectBrand, hHP, hXerox, hBrother, hRicoh, hCanon, hKonica,
    hOKI, hKyocera, hm]
  simp

/-- Witness for `DetectBrand_sharp_amended` on the descriptor
"SHARP AR-5620". -/
theorem DetectBrand_sharp_amended_witness :
    matchesPatterns ("SHARP AR-5620".toList.map Char.toLower) hpPatterns = false ∧
    DetectBrand "SHARP AR-5620".toList = "Sharp".toList :=
  ⟨by decide,
   (DetectBrand_sharp_amended "SHARP AR-5620".toList (by decide) (by decide)
      (by decide) (by decide) (by decide) (by decide) (by decide) (by decide)
      (by decide)).2⟩

/-! ### pkg/collector/data.go : suspicious counter values and the
`page_count` fallback of `collectCounters` -/

/-- The hard-coded sentinel map of `isSuspiciousValue` (data.go, lines
1255-1270). -/
def suspiciousList : List Int :=
  [2147483647, 4294967295, 9223372036, 268435456, 536870912, 1073741824,
   2097151, 4194303, 8388607, 16777215, 33554431, 27327487, 18935871, 2002943]

/-- `isSuspiciousValue` (data.go, lines 1253-1282): sentinel-table membership,
plus the dynamic power-of-two test `val > 1000 && val&(val-1) == 0`. -/
def isSuspiciousValue (val : Int) : Bool :=
  if val ∈ suspiciousList then true
  else if 1000 < val ∧ (val.toNat &&& (val.toNat - 1)) = 0 then true
  else false

/-- `getPageCountFromStatus` (data.go, lines 1218-1228), with `toInt64`
applied to the stored value (`nil` ↦ 0).  The status and counters maps hold
`int64` values or `nil`, modelled as `Option Int` entries. -/
def getPageCountFromStatus (status : List (List Char × Option Int)) : Int :=
  match lookupAssoc status "page_count".toList with
  | some v => v.getD 0
  | none => 0

/-- The final `page_count` fallback of `collectCounters` (data.go, lines
1700-1708): when `total_pages` is missing, `nil`, or suspicious, and the
status section yields a positive `page_count`, that value replaces
`total_pages`. -/
def finalizeTotalPages (normalized status : List (List Char × Option Int)) :
    List (List Char × Option Int) :=
  let pageCount := getPageCountFromStatus status
  let needFallback :=
    match lookupAssoc normalized "total_pages".toList with
    | none => true
    | some none => true
    | some (some v) => isSuspiciousValue v
  if needFallback then
    if pageCount > 0 then
      insertAssoc normalized "total_pages".toList (some pageCount)
    else normalized
  else normalized

/-- C6: when `total_pages` is missing, `nil`, or matches the suspicious-value
test, and the status section yields `page_count > 0`, the final
`total_pages` equals that `page_count`; moreover the suspicious table indeed
contains `2147483647`, `4294967295`, the empirical Samsung values
`27327487`, `18935871`, `2002943`, and every power of two above 1000. -/
theorem finalizeTotalPages_suspicious_fallback
    (normalized status : List (List Char × Option Int))
    (hsusp : lookupAssoc normalized "total_pages".toList = none ∨
             lookupAssoc normalized "total_pages".toList = some none ∨
             ∃ v, lookupAssoc normalized "total_pages".toList = some (some v) ∧
               isSuspiciousValue v = true)
    (hpc : 0 < getPageCountFromStatus status) :
    lookupAssoc (finalizeTotalPages normalized status) "total_pages".toList =
      some (some (getPageCountFromStatus status)) ∧
    (isSuspiciousValue 2147483647 = true ∧ isSuspiciousValue 4294967295 = true ∧
     isSuspiciousValue 27327487 = true ∧ isSuspiciousValue 18935871 = true ∧
     isSuspiciousValue 2002943 = true) ∧
    (∀ k : Nat, 1000 < (2 : Int) ^ k → isSuspiciousValue ((2 : Int) ^ k) = true) := by
  refine ⟨?_, by decide, ?_⟩
  · have hneed :
        (match lookupAssoc normalized "total_pages".toList with
          | none => true
          | some none => true
          | some (some v) => isSuspiciousValue v) = true := by
      rcases hsusp with h | h | ⟨v, h, hv⟩
      · rw [h]
      · rw [h]
      · rw [h]
        exact hv
    unfold finalizeTotalPages
    rw [hneed]
    simp only [if_true, if_pos hpc]
    exact lookupAssoc_insertAssoc _ _ _
  · intro k hk
    unfold isSuspiciousValue
    by_cases hmem : (2 : Int) ^ k ∈ suspiciousList
    · rw [if_pos hmem]
    · rw [if_neg hmem]
      have htn : ((2 : Int) ^ k).toNat = 2 ^ k := by
        have : ((2 : Int) ^ k) = ((2 ^ k : Nat) : Int) := by push_cast; ring
        rw [this, Int.toNat_natCast]
      have hand : (((2 : Int) ^ k).toNat &&& (((2 : Int) ^ k).toNat - 1)) = 0 := by
        rw [htn]
        calc 2 ^ k &&& (2 ^ k - 1) = 2 ^ k % 2 ^ k :=
              Nat.and_pow_two_sub_one_eq_mod (2 ^ k) k
          _ = 0 := Nat.mod_self _
      rw [if_pos ⟨hk, hand⟩]

/-- Witness for `finalizeTotalPages_suspicious_fallback`: `total_pages` is the
sentinel `2147483647` and `page_count = 4180`, so the final `total_pages` is
`4180`. -/
theorem finalizeTotalPages_suspicious_fallback_witness :
    lookupAssoc
        (finalizeTotalPages
          [("total_pages".toList, some (2147483647 : Int))]
          [("page_count".toList, some (4180 : Int))])
        "total_pages".toList = some (some (4180 : Int)) := by
  have h := (finalizeTotalPages_suspicious_fallback
    [("total_pages".toList, some (2147483647 : Int))]
    [("page_count".toList, some (4180 : Int))]
    (Or.inr (Or.inr ⟨2147483647, by decide, by decide⟩)) (by decide)).1
  simpa using h

/-! ### pkg/collector/data.go : counter ingestion from the RFC 3805 WALK -/

/-- `unicode.IsSpace`, as used by `strings.TrimSpace` and `strings.Fields`. -/
def isSpaceGo (c : Char) : Bool :=
  decide (c = ' ' ∨ c = '\t' ∨ c = '\n' ∨ c = '\u000B' ∨ c = '\u000C' ∨
    c = '\r' ∨ c = '\u0085' ∨ c = ' ' ∨ c = ' ' ∨
    (' ' ≤ c ∧ c ≤ ' ') ∨ c = ' ' ∨ c = ' ' ∨
    c = ' ' ∨ c = ' ' ∨ c = '　')

/-- `strings.TrimSpace`. -/
def goTrimSpace (s : List Char) : List Char :=
  ((s.dropWhile isSpaceGo).reverse.dropWhile isSpaceGo).reverse

/-- Decimal digit value of a character, if it is a digit. -/
def digitVal (c : Char) : Option Nat :=
  if '0' ≤ c ∧ c ≤ '9' then some (c.toNat - '0'.toNat) else none

/-- Value of a non-empty, all-digit string. -/
def digitsToNat (s : List Char) : Option Nat :=
  if s.isEmpty then none
  else
    s.foldl
      (fun acc c =>
        match acc, digitVal c with
        | some a, some d => some (a * 10 + d)
        | _, _ => none)
      (some 0)

/-- `strconv.ParseInt(s, 10, 64)` (also `strconv.Atoi` on a 64-bit platform):
an optional sign followed by at least one decimal digit, with the `int64`
range check. -/
def goParseInt64 (s : List Char) : Option Int :=
  let signAndDigits : Bool × List Char :=
    match s with
    | '+' :: r => (false, r)
    | '-' :: r => (true, r)
    | r => (false, r)
  match digitsToNat signAndDigits.2 with
  | none => none
  | some n =>
      let v : Int := if signAndDigits.1 then -(n : Int) else (n : Int)
      if -(2 ^ 63) ≤ v ∧ v ≤ 2 ^ 63 - 1 then some v else none

theorem goParseInt64_nil : goParseInt64 [] = none := rfl

/-- `WalkResult` from pkg/snmp (OID plus already-coerced string value). -/
structure WalkResult where
  oid : List Char
  value : List Char

/-- `strings.TrimPrefix(oid, ".")`. -/
def trimLeadingDot (oid : List Char) : List Char :=
  match oid with
  | '.' :: rest => rest
  | rest => rest

/-- The acceptance test of the WALK loop in `collectCounters` (data.go, lines
1667-1685): skip empty values, trim, parse as `int64`, and keep exactly the
values `v` with `0 < v ≤ 3·10⁹`. -/
def counterAccepted (value : List Char) : Option Int :=
  if value = [] then none
  else if goTrimSpace value = [] then none
  else
    match goParseInt64 (goTrimSpace value) with
    | some parsed =>
        if 0 < parsed ∧ parsed ≤ 3000000000 then some parsed else none
    | none => none

/-- One iteration of the WALK loop: accepted values are written into the
counters bucket under the normalized OID. -/
def counterStep (acc : List (List Char × Int)) (r : WalkResult) :
    List (List Char × Int) :=
  match counterAccepted r.value with
  | some v => insertAssoc acc (trimLeadingDot r.oid) v
  | none => acc

/-- The counters bucket built by `collectCounters` from the WALK results
(`allCounters` / `data.Counters`). -/
def collectCountersWalk (results : List WalkResult) : List (List Char × Int) :=
  results.foldl counterStep []

theorem mem_insertAssoc {α : Type} {m : List (List Char × α)} {k : List Char}
    {v : α} {p : List Char × α} (h : p ∈ insertAssoc m k v) :
    p ∈ m ∨ p = (k, v) := by
  unfold insertAssoc at h
  rcases List.mem_append.mp h with h | h
  · exact Or.inl (List.mem_of_mem_filter h)
  · simp only [List.mem_singleton] at h
    exact Or.inr h

theorem counterAccepted_iff (value : List Char) (v : Int) :
    counterAccepted value = some v ↔
      (goParseInt64 (goTrimSpace value) = some v ∧ 0 < v ∧ v ≤ 3000000000) := by
  constructor
  · intro h
    unfold counterAccepted at h
    by_cases h1 : value = []
    · rw [if_pos h1] at h; exact absurd h (by simp)
    · rw [if_neg h1] at h
      by_cases h2 : goTrimSpace value = []
      · rw [if_pos h2] at h; exact absurd h (by simp)
      · rw [if_neg h2] at h
        cases hp : goParseInt64 (goTrimSpace value) with
        | none => rw [hp] at h; exact absurd h (by simp)
        | some parsed =>
            rw [hp] at h
            dsimp only at h
            by_cases h3 : 0 < parsed ∧ parsed ≤ 3000000000
            · rw [if_pos h3] at h
              have hv : parsed = v := by simpa using h
              subst hv
              exact ⟨rfl, h3⟩
            · rw [if_neg h3] at h; exact absurd h (by simp)
  · rintro ⟨hp, h0, h3⟩
    have h2 : goTrimSpace value ≠ [] := by
      intro he
      rw [he, goParseInt64_nil] at hp
      exact absurd hp (by simp)
    have h1 : value ≠ [] := by
      intro he
      apply h2
      rw [he]
      rfl
    unfold counterAccepted
    rw [if_neg h1, if_neg h2, hp]
    dsimp only
    rw [if_pos ⟨h0, h3⟩]

theorem collectCountersWalk_aux (results : List WalkResult)
    (acc : List (List Char × Int))
    (hacc : ∀ p ∈ acc, 0 ≤ p.2 ∧ p.2 ≤ 3000000000) :
    ∀ p ∈ results.foldl counterStep acc, 0 ≤ p.2 ∧ p.2 ≤ 3000000000 := by
  induction results generalizing acc with
  | nil => simpa using hacc
  | cons r rest ih =>
      intro p hp
      simp only [List.foldl_cons] at hp
      refine ih (counterStep acc r) ?_ p hp
      intro q hq
      unfold counterStep at hq
      cases hv : counterAccepted r.value with
      | none => rw [hv] at hq; exact hacc q hq
      | some v =>
          rw [hv] at hq
          rcases mem_insertAssoc hq with h | h
          · exact hacc q h
          · obtain ⟨hpv, hb⟩ := (counterAccepted_iff r.value v).mp hv
            rw [h]
            exact ⟨le_of_lt hb.1, hb.2⟩

/-- C5: a WALK value is stored in the counters bucket iff it parses (after
trimming) as an integer `v` with `0 < v ≤ 3·10⁹`; consequently every value
in the bucket is `≥ 0` and `≤ 3·10⁹`. -/
theorem collectCountersWalk_range_filter :
    (∀ (value : List Char) (v : Int),
        counterAccepted value = some v ↔
          (goParseInt64 (goTrimSpace value) = some v ∧
           0 < v ∧ v ≤ 3000000000)) ∧
    (∀ (results : List WalkResult) (p : List Char × Int),
        p ∈ collectCountersWalk results → 0 ≤ p.2 ∧ p.2 ≤ 3000000000) :=
  ⟨counterAccepted_iff,
   fun results => collectCountersWalk_aux results [] (by simp)⟩

/-- Witness for `collectCountersWalk_range_filter`: the value " 42" (with a
leading space) is accepted as 42, and entries of a concrete bucket are in
range. -/
theorem collectCountersWalk_range_filter_witness :
    counterAccepted " 42".toList = some 42 ∧
    ((0 : Int) ≤ 42 ∧ (42 : Int) ≤ 3000000000) :=
  ⟨(collectCountersWalk_range_filter.1 " 42".toList 42).mpr
      ⟨by decide, by decide, by decide⟩,
   collectCountersWalk_range_filter.2 [⟨"1.2".toList, "42".toList⟩]
      ("1.2".toList, 42) (by decide)⟩

/-! ### pkg/scanner/network.go : IP range parsing -/

/-- `strings.Split(s, sep)` for a one-character separator: always returns at
least one (possibly empty) part. -/
def splitOnChar (sep : Char) : List Char → List (List Char)
  | [] => [[]]
  | c :: rest =>
      if c = sep then [] :: splitOnChar sep rest
      else
        match splitOnChar sep rest with
        | [] => [[c]]
        | h :: t => (c :: h) :: t

theorem splitOnChar_ne_nil (sep : Char) (s : List Char) :
    splitOnChar sep s ≠ [] := by
  cases s with
  | nil => simp [splitOnChar]
  | cons c rest =>
      unfold splitOnChar
      by_cases h : c = sep
      · simp [h]
      · rw [if_neg h]
        cases splitOnChar sep rest <;> simp

theorem splitOnChar_cons_ne (sep c : Char) (xs : List Char) (hc : ¬ c = sep) :
    splitOnChar sep (c :: xs) =
      match splitOnChar sep xs with
      | [] => [[c]]
      | h :: t => (c :: h) :: t := by
  simp only [splitOnChar]
  rw [if_neg hc]

theorem splitOnChar_no_sep (sep : Char) (s : List Char) (h : sep ∉ s) :
    splitOnChar sep s = [s] := by
  induction s with
  | nil => rfl
  | cons c rest ih =>
      have hc : ¬ c = sep := fun hc => h (by simp [hc])
      have hr : sep ∉ rest := fun hr => h (by simp [hr])
      rw [splitOnChar_cons_ne sep c rest hc, ih hr]

theorem splitOnChar_append_sep (sep : Char) (s t : List Char) (hs : sep ∉ s) :
    splitOnChar sep (s ++ sep :: t) = s :: splitOnChar sep t := by
  induction s with
  | nil => simp [splitOnChar]
  | cons c rest ih =>
      have hc : ¬ c = sep := fun hc => hs (by simp [hc])
      have hr : sep ∉ rest := fun hr => hs (by simp [hr])
      rw [List.cons_append, splitOnChar_cons_ne sep c _ hc, ih hr]

/-- One dotted-decimal field of an IPv4 literal, as `net.ParseIP` accepts it:
one to three digits, no leading zero (Go rejects leading zeros in IPv4
literals), value at most 255. -/
def parseOctetField (s : List Char) : Option Nat :=
  if s = [] then none
  else if 1 < s.length ∧ s.head? = some '0' then none
  else
    match digitsToNat s with
    | some n => if n ≤ 255 then some n else none
    | none => none

/-- `net.ParseIP` restricted to dotted-decimal IPv4 literals, composed with
`To4` (which is the identity on such addresses).  IPv6 textual forms are the
only other inputs `net.ParseIP` accepts; they are outside the inputs the
range-parser claims quantify over and are not modelled. -/
def goParseIPv4 (s : List Char) : Option (Nat × Nat × Nat × Nat) :=
  match splitOnChar '.' s with
  | [p1, p2, p3, p4] =>
      match parseOctetField p1, parseOctetField p2,
            parseOctetField p3, parseOctetField p4 with
      | some a, some b, some c, some d => some (a, b, c, d)
      | _, _, _, _ => none
  | _ => none

/-- Decimal rendering of a byte, as `net.IP.String` prints each octet. -/
def natToChars (n : Nat) : List Char := Nat.toDigits 10 n

/-- `net.IPv4(a, b, c, i).String()` for the generated addresses. -/
def ipString (a b c i : Nat) : List Char :=
  natToChars a ++ '.' :: natToChars b ++ '.' :: natToChars c ++ '.' :: natToChars i

/-- `parseRangeFormat` (network.go, lines 31-64): parse the start IP, parse
and range-check the final octet, then generate `startNum..endNum` (an empty
list when `startNum > endNum`, since the Go `for` loop body never runs). -/
def parseRangeFormat (startIP endOctet : List Char) :
    Except (List Char) (List (List Char)) :=
  match goParseIPv4 startIP with
  | none => .error ("IP inicial inválida: ".toList ++ startIP)
  | some (a, b, c, startNum) =>
      match goParseInt64 endOctet with
      | none => .error ("octeto final inválido: ".toList ++ endOctet)
      | some endNum =>
          if endNum < 0 ∨ endNum > 255 then
            .error "octeto fuera de rango (0-255)".toList
          else
            .ok ((List.range' startNum (endNum.toNat + 1 - startNum)).map
              (fun i => ipString a b c i))

/-- `ParseIPRange` (network.go, lines 12-28). -/
def ParseIPRange (ipRange : List Char) : Except (List Char) (List (List Char)) :=
  match splitOnChar '-' ipRange with
  | [s1, s2] => parseRangeFormat s1 s2
  | [_] =>
      if (goParseIPv4 ipRange).isSome then .ok [ipRange]
      else .error ("formato de IP inválido: ".toList ++ ipRange)
  | _ => .error ("formato de rango inválido: ".toList ++ ipRange)

/-- C2 counterexample: on the inverted range "10.0.0.10-5" (start octet 10 >
end octet 5, so the input is not well-formed under the accepted grammar) the
claim requires a parse error; `ParseIPRange` instead succeeds with an empty
list. -/
theorem ParseIPRange_inverted_counterexample :
    ParseIPRange "10.0.0.10-5".toList = .ok [] := by
  rfl

/-- C2 (amended): for a range input `s ++ "-" ++ t` whose start parses as an
IPv4 address `a.b.c.x` and whose end octet parses as an integer `y`:
if `0 ≤ y ≤ 255` the result is the ascending list `a.b.c.x … a.b.c.y` — of
length `y − x + 1` when `x ≤ y`, and *empty with no error* when `x > y`;
if `y` is out of range the call fails.  A single dash-free valid IPv4
literal parses to the one-element list holding itself. -/
theorem ParseIPRange_amended (s t u : List Char) (a b c x : Nat) (y : Int)
    (hs : goParseIPv4 s = some (a, b, c, x))
    (ht : goParseInt64 t = some y)
    (hsd : '-' ∉ s) (htd : '-' ∉ t)
    (hu : (goParseIPv4 u).isSome = true) (hud : '-' ∉ u) :
    (0 ≤ y → y ≤ 255 →
      ParseIPRange (s ++ '-' :: t) =
        .ok ((List.range' x (y.toNat + 1 - x)).map (fun i => ipString a b c i)) ∧
      ((List.range' x (y.toNat + 1 - x)).map (fun i => ipString a b c i)).length =
        y.toNat + 1 - x) ∧
    (y < 0 ∨ 255 < y →
      ParseIPRange (s ++ '-' :: t) = .error "octeto fuera de rango (0-255)".toList) ∧
    ParseIPRange u = .ok [u] := by
  have hsplit : splitOnChar '-' (s ++ '-' :: t) = [s, t] := by
    rw [splitOnChar_append_sep '-' s t hsd, splitOnChar_no_sep '-' t htd]
  have hrf : ParseIPRange (s ++ '-' :: t) = parseRangeFormat s t := by
    unfold ParseIPRange
    rw [hsplit]
  have heval : parseRangeFormat s t =
      if y < 0 ∨ y > 255 then .error "octeto fuera de rango (0-255)".toList
      else .ok ((List.range' x (y.toNat + 1 - x)).map (fun i => ipString a b c i)) := by
    unfold parseRangeFormat
    rw [hs]
    dsimp only
    rw [ht]
  refine ⟨?_, ?_, ?_⟩
  · intro h0 h255
    have hrange : ¬ (y < 0 ∨ y > 255) := by omega
    refine ⟨?_, by simp⟩
    rw [hrf, heval, if_neg hrange]
  · intro hout
    have hrange : y < 0 ∨ y > 255 := by omega
    rw [hrf, heval, if_pos hrange]
  · unfold ParseIPRange
    rw [splitOnChar_no_sep '-' u hud]
    dsimp only
    rw [if_pos hu]

/-- Witness for `ParseIPRange_amended`: the range "10.0.0.1-3" expands to the
three ascending addresses, and the single literal "192.168.1.7" parses to
itself. -/
theorem ParseIPRange_amended_witness :
    ParseIPRange "10.0.0.1-3".toList =
      .ok ["10.0.0.1".toList, "10.0.0.2".toList, "10.0.0.3".toList] ∧
    ParseIPRange "192.168.1.7".toList = .ok ["192.168.1.7".toList] := by
  have h := ParseIPRange_amended "10.0.0.1".toList "3".toList "192.168.1.7".toList
    10 0 0 1 3 (by decide) (by decide) (by decide) (by decide) (by decide)
    (by decide)
  refine ⟨?_, h.2.2⟩
  have h1 := (h.1 (by decide) (by decide)).1
  have he : "10.0.0.1".toList ++ '-' :: "3".toList = "10.0.0.1-3".toList := by decide
  rw [he] at h1
  rw [h1]
  rfl

/-! ### pkg/snmp/hex_decoder.go : PDU value coercion -/

/-- The printable-byte test of `isLikelyText`: ASCII 32-126 plus TAB/LF/CR. -/
def printableByte (c : Nat) : Bool :=
  (32 ≤ c && c ≤ 126) || c == 9 || c == 10 || c == 13

/-- `isLikelyText`: nonempty and at least 80 % printable bytes.  The Go
comparison `float64(count)/float64(len) >= 0.8` is the exact rational
comparison `5·count ≥ 4·len` for every byte string of realistic length (the
two can differ only when `len` exceeds about 10¹⁶, where the float64 quotient
loses the distinction). -/
def isLikelyText (b : List Nat) : Bool :=
  if b.length = 0 then false
  else decide (4 * b.length ≤ 5 * b.countP printableByte)

/-- The per-byte admission test of `isLikelyASCII` (printable or
TAB/LF/CR). -/
def asciiOK (c : Nat) : Bool :=
  !(c < 32 && !(c == 9) && !(c == 10) && !(c == 13)) && !(126 < c)

/-- `isLikelyASCII`: nonempty, every byte printable ASCII or whitespace. -/
def isLikelyASCII (b : List Nat) : Bool :=
  !b.isEmpty && b.all asciiOK

/-- The scanning loop of `isValidUTF8`: the second argument is the number of
continuation bytes still to skip (`i += 2/3/4` in the source); running out of
bytes mid-sequence is the source's `i+k >= len(b)` failure. -/
def utf8Aux : List Nat → Nat → Bool
  | _ :: r, k + 1 => utf8Aux r k
  | [], _ + 1 => false
  | [], 0 => true
  | b :: rest, 0 =>
      if b < 0x80 then utf8Aux rest 0
      else if b < 0xC0 then false
      else if b < 0xE0 then utf8Aux rest 1
      else if b < 0xF0 then utf8Aux rest 2
      else if b < 0xF8 then utf8Aux rest 3
      else false

/-- `isValidUTF8` (hex_decoder.go): the length-only multi-byte scan of the
source — it checks lead-byte ranges and that enough continuation bytes
remain, but not the continuation bytes themselves. -/
def isValidUTF8 (b : List Nat) : Bool := utf8Aux b 0

/-- `strings.TrimRight(v, "\x00")` on raw bytes. -/
def trimRightNul (b : List Nat) : List Nat :=
  (b.reverse.dropWhile (· = 0)).reverse

/-- Lowercase hex digit, as `hex.EncodeToString` emits it (byte value). -/
def hexDigitByte (n : Nat) : Nat := if n < 10 then 48 + n else 87 + n

/-- Two lowercase hex digits of one byte. -/
def byteHex (b : Nat) : List Nat := [hexDigitByte (b / 16), hexDigitByte (b % 16)]

/-- The colon-separated MAC rendering `xx:xx:xx:xx:xx:xx` (58 = ':'). -/
def macFormat (v : List Nat) : List Nat := List.intercalate [58] (v.map byteHex)

/-- Decimal rendering of an integer value, as `fmt.Sprintf("%d", v)`. -/
def intDecimalBytes (n : Int) : List Nat :=
  if n < 0 then 45 :: (natToChars n.natAbs).map Char.toNat
  else (natToChars n.toNat).map Char.toNat

/-- A raw SNMP PDU value: nil, a Go string, an octet slice, or an integer
(covering the signed/unsigned cases, which all print in decimal). -/
inductive PDUValue where
  | nullv
  | str (s : List Nat)
  | octets (b : List Nat)
  | intv (n : Int)

/-- Exported `ParseValue` (hex_decoder.go, lines 566-608): text test first,
then the 6-byte MAC check guarded by `!isLikelyText`, then the (unreachable)
ASCII branch, else empty. -/
def ParseValue : PDUValue → List Nat
  | .nullv => []
  | .str s => trimRightNul s
  | .octets v =>
      if isValidUTF8 v && isLikelyText v then trimRightNul v
      else if v.length = 6 && !(isLikelyText v) then macFormat v
      else if isLikelyASCII v then trimRightNul v
      else []
  | .intv n => intDecimalBytes n

/-- Lowercase `parseValue` (hex_decoder.go, lines 288-324), the duplicate
coercion routine used by the sibling SNMP client: it assumes *any* 6-byte
octet value is a binary MAC address, before attempting the text
interpretation. -/
def parseValue : PDUValue → List Nat
  | .nullv => []
  | .str s => trimRightNul s
  | .octets v =>
      if v.length = 6 then macFormat v
      else if isValidUTF8 v && isLikelyText v then trimRightNul v
      else []
  | .intv n => intDecimalBytes n

theorem ParseValue_octets_eq (v : List Nat) :
    ParseValue (.octets v) =
      if isValidUTF8 v && isLikelyText v then trimRightNul v
      else if v.length = 6 && !(isLikelyText v) then macFormat v
      else if isLikelyASCII v then trimRightNul v
      else [] := rfl

theorem parseValue_octets_eq (v : List Nat) :
    parseValue (.octets v) =
      if v.length = 6 then macFormat v
      else if isValidUTF8 v && isLikelyText v then trimRightNul v
      else [] := rfl

theorem asciiOK_printable {c : Nat} (h : asciiOK c = true) :
    printableByte c = true ∧ c < 128 := by
  unfold asciiOK at h
  rw [Bool.and_eq_true] at h
  obtain ⟨h1, h2⟩ := h
  have hle : c ≤ 126 := by simpa using h2
  by_cases hlt : c < 32
  · have h1' : c = 9 ∨ c = 10 ∨ c = 13 := by
      have h1'' := by simpa [hlt] using h1
      tauto
    rcases h1' with h | h | h <;> subst h <;> exact ⟨rfl, by omega⟩
  · refine ⟨?_, by omega⟩
    have h32 : 32 ≤ c := by omega
    unfold printableByte
    simp [h32, hle]

theorem isValidUTF8_of_lt128 (v : List Nat) (h : ∀ c ∈ v, c < 128) :
    isValidUTF8 v = true := by
  unfold isValidUTF8
  induction v with
  | nil => rfl
  | cons c rest ih =>
      have hc : c < 128 := h c (by simp)
      have hr : ∀ x ∈ rest, x < 128 := fun x hx => h x (by simp [hx])
      have : utf8Aux (c :: rest) 0 = utf8Aux rest 0 := by
        simp [utf8Aux, hc]
      rw [this]
      exact ih hr

theorem isLikelyASCII_implies (v : List Nat) (h : isLikelyASCII v = true) :
    isValidUTF8 v = true ∧ isLikelyText v = true := by
  unfold isLikelyASCII at h
  rw [Bool.and_eq_true] at h
  obtain ⟨hne, hall⟩ := h
  have hall' : ∀ c ∈ v, asciiOK c = true := by
    intro c hc
    exact List.all_eq_true.mp hall c hc
  have hprint : ∀ c ∈ v, printableByte c = true :=
    fun c hc => (asciiOK_printable (hall' c hc)).1
  constructor
  · exact isValidUTF8_of_lt128 v fun c hc => (asciiOK_printable (hall' c hc)).2
  · have hcount : v.countP printableByte = v.length :=
      List.countP_eq_length.mpr hprint
    unfold isLikelyText
    have hlen : ¬ v.length = 0 := by
      cases v with
      | nil => simp at hne
      | cons a t => simp
    rw [if_neg hlen, hcount]
    simp only [decide_eq_true_eq]
    omega

/-- C4 (amended): the exported `ParseValue` behaves exactly as the claim
states — printable-text octets are returned trimmed (also at length 6), only
a 6-byte value failing the printable-text test is MAC-formatted, everything
else yields the empty string (the ASCII branch is unreachable).  The
duplicate lowercase `parseValue`, however, MAC-formats *every* 6-byte octet
value, including printable text. -/
theorem ParseValue_octets_amended (v : List Nat) :
    (isValidUTF8 v = true → isLikelyText v = true →
      ParseValue (.octets v) = trimRightNul v) ∧
    (v.length = 6 → isLikelyText v = false →
      ParseValue (.octets v) = macFormat v) ∧
    (¬ (isValidUTF8 v = true ∧ isLikelyText v = true) →
      ¬ (v.length = 6 ∧ isLikelyText v = false) →
      ParseValue (.octets v) = []) ∧
    (v.length = 6 → parseValue (.octets v) = macFormat v) := by
  refine ⟨?_, ?_, ?_, ?_⟩
  · intro h1 h2
    rw [ParseValue_octets_eq]
    rw [if_pos (by simp [h1, h2])]
  · intro h6 hnt
    rw [ParseValue_octets_eq]
    rw [if_neg (by simp [hnt]), if_pos (by simp [h6, hnt])]
  · intro hno h6
    by_cases ht : isLikelyText v = true
    · have hv : isValidUTF8 v = false :=
        Bool.eq_false_iff.mpr fun hv => hno ⟨hv, ht⟩
      have hascii : isLikelyASCII v = false :=
        Bool.eq_false_iff.mpr fun ha => hno (isLikelyASCII_implies v ha)
      rw [ParseValue_octets_eq]
      rw [if_neg (by simp [hv]), if_neg (by simp [ht]),
        if_neg (by simp [hascii])]
    · have ht' : isLikelyText v = false := Bool.eq_false_iff.mpr ht
      have hlen : ¬ v.length = 6 := fun hl => h6 ⟨hl, ht'⟩
      have hascii : isLikelyASCII v = false :=
        Bool.eq_false_iff.mpr fun ha => ht (isLikelyASCII_implies v ha).2
      rw [ParseValue_octets_eq]
      rw [if_neg (by simp [ht']), if_neg (by simp [hlen]),
        if_neg (by simp [hascii])]
  · intro h6
    rw [parseValue_octets_eq]
    rw [if_pos h6]

/-- Witness for `ParseValue_octets_amended`: the 6-byte printable value
"SAMSUN" is returned as the string, and the non-text 6-byte value
`00:01:02:03:04:05` is MAC-formatted. -/
theorem ParseValue_octets_amended_witness :
    ParseValue (.octets [83, 65, 77, 83, 85, 78]) = [83, 65, 77, 83, 85, 78] ∧
    ParseValue (.octets [0, 1, 2, 3, 4, 5]) = macFormat [0, 1, 2, 3, 4, 5] := by
  constructor
  · have h := (ParseValue_octets_amended [83, 65, 77, 83, 85, 78]).1
      (by decide) (by decide)
    rw [h]
    decide
  · exact (ParseValue_octets_amended [0, 1, 2, 3, 4, 5]).2.1 (by decide) (by decide)

/-- C4 counterexample: the 6-byte octet string "SAMSUN" is valid UTF-8 and
fully printable, so the claim requires the trimmed string; the duplicate
coercion routine `parseValue` nevertheless formats it as the MAC address
"53:41:4d:53:55:4e". -/
theorem parseValue_samsun_counterexample :
    isValidUTF8 [83, 65, 77, 83, 85, 78] = true ∧
    isLikelyText [83, 65, 77, 83, 85, 78] = true ∧
    parseValue (.octets [83, 65, 77, 83, 85, 78]) =
      [53, 51, 58, 52, 49, 58, 52, 100, 58, 53, 51, 58, 53, 53, 58, 52, 101] ∧
    parseValue (.octets [83, 65, 77, 83, 85, 78]) ≠
      trimRightNul [83, 65, 77, 83, 85, 78] := by
  refine ⟨by decide, by decide, by decide, by decide⟩

/-! ### Telemetry builder : `buildSupplies` and supply status deduction

The collected supply entries are Go maps whose values are integers or
strings (the collector emits coerced scalar values; the `float64` case of
`extractFieldAsInt` is never produced by it and is not modelled).  The
descriptive fields extracted alongside (`type`, `model`, `serial_number`,
`description`, `component_type`, `brand`, `page_capacity`) do not influence
whether an entry is emitted or its numeric fields, and `deduceSupplyType`
iterates a Go map in unspecified order, so they are not carried by the
embedded record. -/

/-- A raw value of a collected supply map. -/
inductive RawVal where
  | rint (n : Int)
  | rstr (s : List Char)
  deriving Repr, DecidableEq

/-- `Builder.extractFieldAsString`: first key whose value is a non-empty
string. -/
def extractFieldAsString (supply : List (List Char × RawVal)) :
    List (List Char) → List Char
  | [] => []
  | key :: keys =>
      match lookupAssoc supply key with
      | some (.rstr s) =>
          if s ≠ [] then s else extractFieldAsString supply keys
      | _ => extractFieldAsString supply keys

/-- Longest leading run of decimal digits, as `fmt.Sscanf` consumes for
`%d`. -/
def digitsPrefixVal (s : List Char) : Option Nat :=
  let ds := s.takeWhile fun c => '0' ≤ c ∧ c ≤ '9'
  if ds = [] then none else digitsToNat ds

/-- `fmt.Sscanf(s, "%d", …)` into an `int`: optional sign then at least one
digit (leading spaces skipped); trailing bytes are ignored by a trailing
`%d` verb; a value outside the `int64` range makes the verb fail with
`strconv`'s range error, so the caller falls through to the `%f` attempt. -/
def goScanIntPrefix (s : List Char) : Option Int :=
  let t := s.dropWhile isSpaceGo
  let signAndRest : Bool × List Char :=
    match t with
    | '+' :: r => (false, r)
    | '-' :: r => (true, r)
    | r => (false, r)
  match digitsPrefixVal signAndRest.2 with
  | none => none
  | some n =>
      let v : Int := if signAndRest.1 then -(n : Int) else (n : Int)
      if -(2 ^ 63) ≤ v ∧ v ≤ 2 ^ 63 - 1 then some v else none

/-- `int(f)` for `fmt.Sscanf(s, "%f", …)`: sign, integer digits, optional
fraction (exponents are not modelled); Go truncates toward zero, so the
result is the signed integer part.  For integer parts below 2⁵³ the parsed
`float64` is exact and this model coincides with the program; beyond that
`float64` rounding perturbs the low bits, and a result outside the `int64`
range makes Go's conversion implementation-defined — the gc/amd64 backend
yields `math.MinInt64`, which is the value modelled here. -/
def goScanFloatTrunc (s : List Char) : Option Int :=
  let t := s.dropWhile isSpaceGo
  let signAndRest : Bool × List Char :=
    match t with
    | '+' :: r => (false, r)
    | '-' :: r => (true, r)
    | r => (false, r)
  let intPart := signAndRest.2.takeWhile fun c => '0' ≤ c ∧ c ≤ '9'
  let rest := signAndRest.2.drop intPart.length
  let fracDigits :=
    match rest with
    | '.' :: fr => (fr.takeWhile fun c => '0' ≤ c ∧ c ≤ '9').length
    | _ => 0
  if intPart = [] ∧ fracDigits = 0 then none
  else
    let n := (digitsToNat intPart).getD 0
    let v : Int := if signAndRest.1 then -(n : Int) else (n : Int)
    some (if v < -(2 ^ 63) ∨ 2 ^ 63 - 1 < v then -(2 ^ 63) else v)

/-- `Builder.extractFieldAsInt`: first key holding an integer, or a non-empty
string parsed by `%d` (else `%f`, truncated); `0` when nothing matches. -/
def extractFieldAsInt (supply : List (List Char × RawVal)) :
    List (List Char) → Int
  | [] => 0
  | key :: keys =>
      match lookupAssoc supply key with
      | some (.rint n) => n
      | some (.rstr s) =>
          if s ≠ [] then
            match goScanIntPrefix s with
            | some n => n
            | none =>
                match goScanFloatTrunc s with
                | some n => n
                | none => extractFieldAsInt supply keys
          else extractFieldAsInt supply keys
      | _ => extractFieldAsInt supply keys

/-- `strings.ToUpper` (ASCII-faithful). -/
def goToUpper (s : List Char) : List Char := s.map Char.toUpper

/-- `strings.ToLower` (ASCII-faithful). -/
def goToLower (s : List Char) : List Char := s.map Char.toLower

/-- `strings.Index(s, pat)`: position of the first occurrence. -/
def subIndex (pat : List Char) : List Char → Option Nat
  | [] => if pat = [] then some 0 else none
  | c :: rest =>
      if pat.isPrefixOf (c :: rest) then some 0
      else (subIndex pat rest).map (· + 1)

/-- Go `len(s)`: the UTF-8 byte length. -/
def goLen (s : List Char) : Nat := (s.map Char.utf8Size).sum

/-- One truncation step of `cleanSupplyName`: cut `name` before the first
occurrence of `pat` in its uppercased form, then trim. -/
def cutAtUpper (pat name : List Char) : List Char :=
  match subIndex pat (goToUpper name) with
  | some idx => goTrimSpace (name.take idx)
  | none => name

/-- The ordered separator list of `cleanSupplyName` step 3. -/
def sepList : List (List Char) :=
  ["Serial".toList, "Part Number".toList, "PN ".toList, "PN:".toList,
   "PN=".toList, "P/N:".toList, "P/N ".toList, "Model:".toList,
   "Version:".toList]

/-- The `break`-ing separator loop of `cleanSupplyName`: the first separator
found (case-insensitively) truncates the name. -/
def cutAtFirstSep : List (List Char) → List Char → List Char
  | [], name => name
  | sep :: rest, name =>
      match subIndex (goToLower sep) (goToLower name) with
      | some idx => goTrimSpace (name.take idx)
      | none => cutAtFirstSep rest name

/-- `strings.TrimSuffix(s, ",")`. -/
def trimSuffixComma (s : List Char) : List Char :=
  if s.getLast? = some ',' then s.dropLast else s

/-- Word accumulation of `strings.Fields`. -/
def fieldsAux : List Char → List Char → List (List Char)
  | [], cur => if cur = [] then [] else [cur.reverse]
  | c :: rest, cur =>
      if isSpaceGo c then
        if cur = [] then fieldsAux rest []
        else cur.reverse :: fieldsAux rest []
      else fieldsAux rest (c :: cur)

/-- `strings.Fields`. -/
def goFields (s : List Char) : List (List Char) := fieldsAux s []

/-- `Builder.cleanSupplyName`: trim, cut at ";SN" / "S/N:" / the separator
table, strip a trailing comma, collapse whitespace, and reject results
shorter than 3 bytes. -/
def cleanSupplyName (name₀ : List Char) : List Char :=
  let name := goTrimSpace name₀
  if name = [] then []
  else
    let name := cutAtUpper ";SN".toList name
    let name := cutAtUpper "S/N:".toList name
    let name := cutAtFirstSep sepList name
    let name := goTrimSpace (trimSuffixComma (goTrimSpace name))
    let name := List.intercalate [' '] (goFields name)
    if goLen name < 3 then [] else name

/-- The descriptive-name test of `buildSupplies` filter 3. -/
def nameHasInfo (name : List Char) : Bool :=
  let lowerName := goToLower name
  containsSub lowerName "s/n:".toList || containsSub lowerName "serial".toList ||
  containsSub lowerName "part".toList || containsSub lowerName "model".toList ||
  containsSub lowerName "firmware".toList ||
  containsSub lowerName "version".toList || decide (50 < goLen name)

/-- `Builder.normalizeToID`: spaces to underscores, lowercased. -/
def normalizeToID (name : List Char) : List Char :=
  goToLower (name.map fun c => if c = ' ' then '_' else c)

/-- `Builder.deduceSupplyStatus`: ≤10 critical, ≤25 low, ≤75 ok, else
good. -/
def deduceSupplyStatus (percentage : Int) : List Char :=
  if percentage ≤ 10 then "critical".toList
  else if percentage ≤ 25 then "low".toList
  else if percentage ≤ 75 then "ok".toList
  else "good".toList

/-- The fields of an emitted `SupplyInfo` that the filters and numeric
invariants concern. -/
structure SupplyInfo where
  id : List Char
  name : List Char
  level : Int
  maxLevel : Int
  percentage : Int
  status : List Char
  deriving Repr, DecidableEq

/-- One iteration of the `buildSupplies` loop: the five filters and the
construction of the emitted entry; `none` means the raw entry is skipped.
The `level * 100` product is an `int64` multiplication in the source, so it
is wrapped with `wrap64`; the subsequent division by the positive `maxLevel`
cannot leave the `int64` range, and the final `int(...)` conversion is the
identity on a 64-bit platform. -/
def buildSupplyEntry (supply : List (List Char × RawVal)) : Option SupplyInfo :=
  let name₀ := extractFieldAsString supply ["name".toList, "description".toList]
  let level := extractFieldAsInt supply ["level".toList, "current".toList]
  let maxLevel := extractFieldAsInt supply ["maxLevel".toList, "max".toList]
  let percentage := extractFieldAsInt supply ["percentage".toList, "percent".toList]
  if name₀ = [] ∨ name₀ = "unknown".toList then none
  else
    let name := goTrimSpace name₀
    if name = [] then none
    else if level = 0 ∧ maxLevel = 0 ∧ percentage = 0 ∧ nameHasInfo name = false
    then none
    else
      let cleanName := cleanSupplyName name
      if cleanName = [] then none
      else
        let calculatedPercentage :=
          if percentage = 0 ∧ 0 < maxLevel ∧ 0 < level then
            (wrap64 (level * 100)).tdiv maxLevel
          else percentage
        some {
          id := normalizeToID cleanName
          name := cleanName
          level := level
          maxLevel := maxLevel
          percentage := calculatedPercentage
          status := deduceSupplyStatus calculatedPercentage
        }

/-- `Builder.buildSupplies`: `nil` on an empty input or when every entry is
filtered out, else the list of emitted entries. -/
def buildSupplies (supplies : List (List (List Char × RawVal))) :
    Option (List SupplyInfo) :=
  if supplies = [] then none
  else
    let out := supplies.filterMap buildSupplyEntry
    if out = [] then none else some out

theorem deduceSupplyStatus_cases (p : Int) :
    deduceSupplyStatus p = "critical".toList ∨
    deduceSupplyStatus p = "low".toList ∨
    deduceSupplyStatus p = "ok".toList ∨
    deduceSupplyStatus p = "good".toList := by
  unfold deduceSupplyStatus
  split_ifs <;> simp

theorem buildSupplyEntry_fields (supply : List (List Char × RawVal))
    (si : SupplyInfo) (h : buildSupplyEntry supply = some si) :
    si.status = deduceSupplyStatus si.percentage ∧
    si.percentage =
      (if extractFieldAsInt supply ["percentage".toList, "percent".toList] = 0 ∧
          0 < extractFieldAsInt supply ["maxLevel".toList, "max".toList] ∧
          0 < extractFieldAsInt supply ["level".toList, "current".toList] then
        (wrap64
          (extractFieldAsInt supply ["level".toList, "current".toList] * 100)).tdiv
          (extractFieldAsInt supply ["maxLevel".toList, "max".toList])
      else extractFieldAsInt supply ["percentage".toList, "percent".toList]) := by
  unfold buildSupplyEntry at h
  dsimp only at h
  split at h
  · exact absurd h (by simp)
  · split at h
    · exact absurd h (by simp)
    · split at h
      · exact absurd h (by simp)
      · split at h
        · exact absurd h (by simp)
        · have hrec := Option.some.inj h
          subst hrec
          exact ⟨rfl, rfl⟩

/-- C7 (amended): every emitted supply entry has a status among
critical/low/ok/good (the deducer returns nothing else); its percentage is
the raw `percentage` field when nonzero, else the `int64` computation
`level·100 / maxLevel` (whose product wraps on overflow) when both are
positive, else 0 — the builder never clamps, so the claimed bounds
`0 ≤ percentage ≤ 100` hold exactly when the raw fields satisfy
`0 ≤ percentage ≤ 100`, `level ≤ maxLevel`, and `level·100` stays within
the `int64` range. -/
theorem buildSupplies_status_percentage :
    (∀ (supplies : List (List (List Char × RawVal))) (l : List SupplyInfo)
        (si : SupplyInfo), buildSupplies supplies = some l → si ∈ l →
        (si.status = "critical".toList ∨ si.status = "low".toList ∨
         si.status = "ok".toList ∨ si.status = "good".toList)) ∧
    (∀ (supply : List (List Char × RawVal)) (si : SupplyInfo),
        buildSupplyEntry supply = some si →
        0 ≤ extractFieldAsInt supply ["percentage".toList, "percent".toList] →
        extractFieldAsInt supply ["percentage".toList, "percent".toList] ≤ 100 →
        extractFieldAsInt supply ["level".toList, "current".toList] ≤
          extractFieldAsInt supply ["maxLevel".toList, "max".toList] →
        extractFieldAsInt supply ["level".toList, "current".toList] * 100 < 2 ^ 63 →
        0 ≤ si.percentage ∧ si.percentage ≤ 100) := by
  constructor
  · intro supplies l si hb hm
    unfold buildSupplies at hb
    split at hb
    · exact absurd hb (by simp)
    · dsimp only at hb
      split at hb
      · exact absurd hb (by simp)
      · have hl := Option.some.inj hb
        subst hl
        obtain ⟨supply, _, hentry⟩ := List.mem_filterMap.mp hm
        rw [(buildSupplyEntry_fields supply si hentry).1]
        exact deduceSupplyStatus_cases si.percentage
  · intro supply si hentry h0 h100 hlm hof
    rw [(buildSupplyEntry_fields supply si hentry).2]
    set p := extractFieldAsInt supply ["percentage".toList, "percent".toList]
      with hp
    set lv := extractFieldAsInt supply ["level".toList, "current".toList]
      with hlv
    set mx := extractFieldAsInt supply ["maxLevel".toList, "max".toList]
      with hmx
    split
    · rename_i hcond
      obtain ⟨-, hmx0, hlv0⟩ := hcond
      have ha : (0 : Int) ≤ lv * 100 := by positivity
      have hb : (0 : Int) ≤ mx := le_of_lt hmx0
      have hlow : -(2 ^ 63 : Int) ≤ lv * 100 := le_trans (by norm_num) ha
      rw [wrap64_eq_self hlow hof, Int.tdiv_eq_ediv ha hb]
      constructor
      · exact Int.ediv_nonneg ha hb
      · calc lv * 100 / mx ≤ mx * 100 / mx :=
              Int.ediv_le_ediv hmx0 (by nlinarith)
          _ = 100 := by
              rw [mul_comm]
              exact Int.mul_ediv_cancel 100 (ne_of_gt hmx0)
    · exact ⟨h0, h100⟩

/-- Witness for `buildSupplies_status_percentage`: a black-toner entry with
raw percentage 50 is emitted with status "ok" and percentage within
bounds. -/
theorem buildSupplies_status_percentage_witness :
    ((buildSupplies [[("name".toList, RawVal.rstr "black toner".toList),
        ("percentage".toList, RawVal.rint 50)]]).getD []).length = 1 ∧
    (∀ si ∈ (buildSupplies [[("name".toList, RawVal.rstr "black toner".toList),
        ("percentage".toList, RawVal.rint 50)]]).getD [],
      (si.status = "critical".toList ∨ si.status = "low".toList ∨
       si.status = "ok".toList ∨ si.status = "good".toList)) ∧
    (0 ≤ (SupplyInfo.mk "black_toner".toList "black toner".toList 0 0 50
        "ok".toList).percentage ∧
     (SupplyInfo.mk "black_toner".toList "black toner".toList 0 0 50
        "ok".toList).percentage ≤ 100) := by
  refine ⟨by decide, ?_, ?_⟩
  · intro si hsi
    refine buildSupplies_status_percentage.1
      [[("name".toList, RawVal.rstr "black toner".toList),
        ("percentage".toList, RawVal.rint 50)]]
      (((buildSupplies [[("name".toList, RawVal.rstr "black toner".toList),
          ("percentage".toList, RawVal.rint 50)]]).getD [])) si ?_ hsi
    decide
  · exact buildSupplies_status_percentage.2
      [("name".toList, RawVal.rstr "black toner".toList),
        ("percentage".toList, RawVal.rint 50)]
      (SupplyInfo.mk "black_toner".toList "black toner".toList 0 0 50
        "ok".toList)
      (by decide) (by decide) (by decide) (by decide) (by decide)

/-- C7 counterexample: a supply entry whose raw `percentage` field is 150 is
emitted with `percentage = 150 > 100` — the builder does not clamp, so the
claimed bound `0 ≤ percentage ≤ 100` fails for this combination of raw
fields (its status, "good", is still in the allowed set). -/
theorem buildSupplies_percentage_counterexample :
    (buildSupplies [[("name".toList, RawVal.rstr "black toner".toList),
        ("percentage".toList, RawVal.rint 150)]]).map
        (fun l => l.map SupplyInfo.percentage) = some [150] ∧
    ¬ ((150 : Int) ≤ 100) := by
  exact ⟨by decide, by decide⟩

end PrintSNMP
